import Mathlib

/-!
Verification of the ISE meta-spreadsheet core (src/model.rs).

The file shallowly embeds the document model and the action reducer of
`src/model.rs`.  The repository modules `coordinate.rs`, `grammar.rs`,
`session.rs`, `style.rs` and `util.rs` are not part of the provided
sources; their definitions are modelled from the specification (marked
`Modelled from the spec:`), while everything taken from `src/model.rs`
follows that file's code.

Modelling conventions:
  - Rust `HashMap` is modelled as an association list with unique-key
    insert-in-place semantics; its (unspecified) iteration order becomes
    the insertion order of the list.
  - `u32` / `NonZeroU32` indices are modelled as `Nat` (overflow at
    `2^32` is irrelevant to every property considered here; positivity
    is enforced where the source constructs `NonZeroU32` values).
  - `f64` display dimensions are modelled as `Rat`; every dimension
    computation in the source (comparison with the 30.0/90.0 baselines,
    division by 3.0, multiplication by a cell count) is exact on the
    rationals.
  - A Rust panic (`unwrap` on `None`, failed deserialization) is
    modelled by the reducer returning `none`; a completed transition
    returns `some (newModel, shouldRender)`.
  - The source keeps a vector of sessions with a current index; every
    action handled below only ever reads or writes the current session
    (via `get_session` / `get_session_mut`), so the model carries the
    current session directly.
-/

namespace ISE

/-- Association-list lookup: first entry whose key matches. Models `HashMap::get`. -/
def lookupA {α β : Type} [DecidableEq α] : List (α × β) → α → Option β
  | [], _ => none
  | kv :: rest, k => if kv.1 = k then some kv.2 else lookupA rest k

/-- Models `HashMap::contains_key`. -/
def containsA {α β : Type} [DecidableEq α] (l : List (α × β)) (k : α) : Bool :=
  (lookupA l k).isSome

/-- Replace the value at an existing key, keeping its position. -/
def replaceA {α β : Type} [DecidableEq α] : List (α × β) → α → β → List (α × β)
  | [], _, _ => []
  | kv :: rest, k, v => if kv.1 = k then (k, v) :: rest else kv :: replaceA rest k v

/-- Models `HashMap::insert`: replace in place if the key is present, else append. -/
def insertA {α β : Type} [DecidableEq α] (l : List (α × β)) (k : α) (v : β) : List (α × β) :=
  if containsA l k then replaceA l k v else l ++ [(k, v)]

/-- Models `HashMap::remove` (keys are unique, so removing the first occurrence suffices). -/
def eraseA {α β : Type} [DecidableEq α] : List (α × β) → α → List (α × β)
  | [], _ => []
  | kv :: rest, k => if kv.1 = k then rest else kv :: eraseA rest k

/-- Models `HashMap::get_mut` followed by a value update: rewrite the entry at `k` if present. -/
def modifyA {α β : Type} [DecidableEq α] (l : List (α × β)) (k : α) (f : β → β) : List (α × β) :=
  l.map (fun kv => if kv.1 = k then (kv.1, f kv.2) else kv)

/-- Models `HashMap::keys` (in the model's deterministic iteration order). -/
def keysA {α β : Type} (l : List (α × β)) : List α :=
  l.map Prod.fst

/-- Left fold of insertions, used to state what the insertion loops of
`InsertCol` / `InsertRow` / `AddNestedGrid` do to the grammar map. -/
def insertManyA {α β : Type} [DecidableEq α] (l : List (α × β)) (news : List (α × β)) :
    List (α × β) :=
  news.foldl (fun acc kv => insertA acc kv.1 kv.2) l

/-- Modelled from the spec: a Coordinate is an ordered, non-empty sequence of
`(row, col)` pairs (§3); the sequence is the `row_cols` field read by
`src/model.rs` (`k.row_cols.len()`). -/
structure Coordinate where
  row_cols : List (Nat × Nat)
  deriving DecidableEq

/-- Modelled from the spec: a row-dimension key — the full path with the final
pair's col replaced by a wildcard (§4.2 `full_row`). -/
structure Row where
  pre : List (Nat × Nat)
  row : Nat
  deriving DecidableEq

/-- Modelled from the spec: a column-dimension key — the full path with the
final pair's row replaced by a wildcard (§4.2 `full_col`). -/
structure Col where
  pre : List (Nat × Nat)
  col : Nat
  deriving DecidableEq

/-- Modelled from the spec: `parent(C)` is `None` iff `len(C) == 1`, else the
sequence with its last pair removed (§4.2). -/
def Coordinate.parent (c : Coordinate) : Option Coordinate :=
  if c.row_cols.length ≤ 1 then none else some ⟨c.row_cols.dropLast⟩

/-- Modelled from the spec: `child_of(C, (r, c))` appends `(r, c)` (§4.2). -/
def Coordinate.child_of (c : Coordinate) (rc : Nat × Nat) : Coordinate :=
  ⟨c.row_cols ++ [rc]⟩

/-- Modelled from the spec: `row(C)` is the last pair's row component (§4.2). -/
def Coordinate.row (c : Coordinate) : Nat :=
  (c.row_cols.getLastD (0, 0)).1

/-- Modelled from the spec: `col(C)` is the last pair's col component (§4.2). -/
def Coordinate.col (c : Coordinate) : Nat :=
  (c.row_cols.getLastD (0, 0)).2

/-- Modelled from the spec: `full_row(C)` keeps the path and the final row (§4.2). -/
def Coordinate.full_row (c : Coordinate) : Row :=
  ⟨c.row_cols.dropLast, c.row⟩

/-- Modelled from the spec: `full_col(C)` keeps the path and the final col (§4.2). -/
def Coordinate.full_col (c : Coordinate) : Col :=
  ⟨c.row_cols.dropLast, c.col⟩

/-- Modelled from the spec: `neighbor_right(C)` adds 1 to the final col; the
spec's only failure case (a non-positive result) cannot arise when adding 1,
so the operation is modelled total (§4.2). -/
def Coordinate.neighbor_right (c : Coordinate) : Coordinate :=
  ⟨c.row_cols.dropLast ++ [(c.row, c.col + 1)]⟩

/-- Modelled from the spec: `neighbor_below(C)` adds 1 to the final row (§4.2). -/
def Coordinate.neighbor_below (c : Coordinate) : Coordinate :=
  ⟨c.row_cols.dropLast ++ [(c.row + 1, c.col)]⟩

/-- Modelled from the spec: the reserved ordinary document root, a length-1
coordinate (§3); encoded as the pair `(1, 1)`. -/
def rootCoord : Coordinate := ⟨[(1, 1)]⟩

/-- Modelled from the spec: the reserved "meta" root, a length-1 coordinate
distinct from the ordinary root (§3); encoded as the pair `(1, 2)`. -/
def metaCoord : Coordinate := ⟨[(1, 2)]⟩

/-- Modelled from the spec: a Lookup target references another coordinate or a
definition (§3); `src/model.rs` matches on the `Cell` variant. -/
inductive Lookup where
  | Cell (dest : Coordinate)
  | DefnRef (dest : Coordinate)
  deriving DecidableEq

/-- Modelled from the spec: presentation attributes, opaque to the core (§3);
carried as an abstract tag so that bit-identity of nodes is expressible. -/
structure Style where
  tag : Nat
  deriving DecidableEq

/-- Modelled from the spec: the default style of a fresh node. -/
def Style.default : Style := ⟨0⟩

/-- Modelled from the spec: the four Grammar Node kinds (§3). -/
inductive Kind where
  | Input (value : String)
  | Lookup (query : String) (resolved_type : Option Lookup)
  | Grid (children : List (Nat × Nat))
  | Defn (label : String) (self_coord : Coordinate) (rules : List (String × Coordinate))
  deriving DecidableEq

/-- Modelled from the spec: a Grammar Node record with name, style and kind (§3);
the field set matches the struct pattern used in `src/model.rs`
(`Grammar { kind, name, style }`). -/
structure Grammar where
  name : String
  style : Style
  kind : Kind
  deriving DecidableEq

/-- Modelled from the spec: the default leaf Grammar Node inserted on structural
growth — an empty `Input` leaf (§3, §4.4). -/
def Grammar.default : Grammar :=
  ⟨"", Style.default, Kind.Input ""⟩

/-- The Cartesian product `1..=rows × 1..=cols` in row-major order (§4.4). -/
def rowMajorPairs (rows cols : Nat) : List (Nat × Nat) :=
  (List.range rows).flatMap (fun r => (List.range cols).map (fun c => (r + 1, c + 1)))

/-- Modelled from the spec: `Grammar::as_grid` builds a new `Grid` node whose
children are the Cartesian product `1..=rows × 1..=cols` in row-major order
(§4.4 `add_nested_grid`). -/
def Grammar.as_grid (rows cols : Nat) : Grammar :=
  ⟨"", Style.default, Kind.Grid (rowMajorPairs rows cols)⟩

/-- The coordinate-to-node map of a session. -/
abbrev GMap := List (Coordinate × Grammar)

/-- Modelled from the spec: the Document Store record (§3); the field set
matches the accesses in `src/model.rs` (`title`, `root`, `meta`, `grammars`). -/
structure Session where
  title : String
  root : Grammar
  meta : Grammar
  grammars : GMap
  deriving DecidableEq

/-- The reducer state of `src/model.rs` (`struct Model`), restricted to the
fields the modelled actions read or write: the transient selection state, the
dimension tables, the side-menu toggle and the current session.  Fields that
only feed the rendering layer or hold IO handles (`view_root`, `suggestions`,
`select_grammar`, `side_menus`, `console`, `reader`, `tasks`, `link`,
`focus_node_ref`) are omitted, as is the session vector (see the module
docstring). -/
structure Model where
  first_select_cell : Option Coordinate
  last_select_cell : Option Coordinate
  active_cell : Option Coordinate
  col_widths : List (Col × Rat)
  row_heights : List (Row × Rat)
  open_side_menu : Option Int
  session : Session
  deriving DecidableEq

/-- `Model::get_session` projected onto the single modelled session. -/
def Model.get_session (m : Model) : Session :=
  m.session

/-- `Model::load_session` (src/model.rs:123): replaces `root`, `meta` and
`grammars` of the current session; the title is not assigned. -/
def Model.load_session (m : Model) (session : Session) : Model :=
  { m with session := { m.session with
      root := session.root
      meta := session.meta
      grammars := session.grammars } }

/-- `Model::query_col` (src/model.rs:144): all stored coordinates, root/meta
(length-1) addresses excluded, whose `full_col` equals the given column key. -/
def Model.query_col (m : Model) (coord_col : Col) : List Coordinate :=
  (keysA m.get_session.grammars).filterMap (fun k =>
    if k.row_cols.length = 1 then none
    else if k.full_col = coord_col then some k else none)

/-- `Model::query_row` (src/model.rs:163): all stored coordinates, root/meta
(length-1) addresses excluded, whose `full_row` equals the given row key. -/
def Model.query_row (m : Model) (coord_row : Row) : List Coordinate :=
  (keysA m.get_session.grammars).filterMap (fun k =>
    if k.row_cols.length = 1 then none
    else if k.full_row = coord_row then some k else none)

/-- The `while let Some(right_coord) = ... neighbor_right()` loop of
`Action::InsertCol` (src/model.rs:554): advance right while the next
coordinate is stored.  Each successful step lands on a distinct stored key,
so `grammars.length` steps of fuel make the loop total without changing its
result. -/
def walk_right : Nat → GMap → Coordinate → Coordinate
  | 0, _, c => c
  | fuel + 1, g, c =>
    let r := c.neighbor_right
    if containsA g r then walk_right fuel g r else c

/-- The `while let Some(below_coord) = ... neighbor_below()` loop of
`Action::InsertRow` (src/model.rs:600). -/
def walk_below : Nat → GMap → Coordinate → Coordinate
  | 0, _, c => c
  | fuel + 1, g, c =>
    let b := c.neighbor_below
    if containsA g b then walk_below fuel g b else c

/-- Modelled from the spec: `util::move_grammar` removes the node at `source`
and inserts it unchanged at `destination`, replacing any prior node there;
no-op if `source` is absent (§4.4). -/
def move_grammar (g : GMap) (source dest : Coordinate) : GMap :=
  match lookupA g source with
  | none => g
  | some v => insertA (eraseA g source) dest v

/-- Modelled from the spec: `util::resize` idempotently overwrites the
dimension-table entries keyed by `coord.full_row()` / `coord.full_col()`
(§4.4). -/
def resize (m : Model) (coord : Coordinate) (height width : Rat) : Model :=
  { m with
      row_heights := insertA m.row_heights coord.full_row height
      col_widths := insertA m.col_widths coord.full_col width }

/-- Modelled from the spec: `util::non_zero_u32_tuple` rebuilds a pair as
`NonZeroU32` values; constructing a `NonZeroU32` from 0 panics (§3 requires
indices ≥ 1), modelled as `none`. -/
def non_zero_u32_tuple (rc : Nat × Nat) : Option (Nat × Nat) :=
  if rc.1 = 0 ∨ rc.2 = 0 then none else some rc

/-- The Action enum of `src/model.rs` (line 58).  File payloads (`File`,
`FileData`) are dropped where the handler never reads them into the core;
`LoadSession`'s payload is carried as the result of its deserialization,
`none` standing for a payload `serde_json` rejects. -/
inductive Action where
  | Noop
  | ChangeInput (coord : Coordinate) (new_value : String)
  | SetActiveCell (coord : Coordinate)
  | DoCompletion (source : Coordinate) (dest : Coordinate)
  | SetActiveMenu (menu : Option Int)
  | ReadSession
  | LoadSession (payload : Option Session)
  | SaveSession
  | SetSessionTitle (name : String)
  | ReadDriverFiles
  | LoadDriverMainFile
  | UploadDriverMiscFile
  | AddNestedGrid (coord : Coordinate) (rows_cols : Nat × Nat)
  | InsertRow
  | InsertCol
  | Alert (message : String)
  | SetSelectedCells (coord : Coordinate)
  | Lookup (source : Coordinate) (lookup_type : Lookup)
  | ToggleLookup (coord : Coordinate)
  | DefnUpdateName (coord : Coordinate) (name : String)
  | DefnUpdateRule (coord : Coordinate) (rule_row : Row)
  | DefnAddRule (coord : Coordinate)

/-- The body of the `Action::ChangeInput` handler (src/model.rs:305): rewrite
the text of an `Input` or `Lookup` node, keeping everything else. -/
def changeInputKind (new_value : String) (g : Grammar) : Grammar :=
  match g.kind with
  | Kind.Input _ => { g with kind := Kind.Input new_value }
  | Kind.Lookup _ lookup_type => { g with kind := Kind.Lookup new_value lookup_type }
  | _ => g

/-- The body of the `Action::ToggleLookup` handler (src/model.rs:656):
`Input` and `Lookup` swap kinds with both texts reset to empty. -/
def toggleLookupKind (g : Grammar) : Grammar :=
  match g.kind with
  | Kind.Input _ => { g with kind := Kind.Lookup "" none }
  | Kind.Lookup _ _ => { g with kind := Kind.Input "" }
  | _ => g

/-- One pass of the `for sub_coord in sub_coords` loop of
`Action::AddNestedGrid` (src/model.rs:516): insert a default leaf at the
child coordinate and create (never overwrite) its row/col dimension
entries. -/
def addChildCell (acc : Model) (coord : Coordinate) (sc : Nat × Nat)
    (tmp_heigt tmp_width : Rat) : Model :=
  let new_coord := Coordinate.child_of coord sc
  let acc1 := { acc with session := { acc.session with
      grammars := insertA acc.session.grammars new_coord Grammar.default } }
  let acc2 :=
    if containsA acc1.row_heights new_coord.full_row then acc1
    else { acc1 with row_heights := insertA acc1.row_heights new_coord.full_row tmp_heigt }
  if containsA acc2.col_widths new_coord.full_col then acc2
  else { acc2 with col_widths := insertA acc2.col_widths new_coord.full_col tmp_width }

/-- The tail of the `Action::AddNestedGrid` handler (src/model.rs:534-548),
run after the child-insertion block on the state `m2` it produced: rewrite a
present parent's kind to the new grid's kind, store the new grid node at
`coord`, and resize `coord` to `rows * 30` by `cols * 90`. -/
def addNestedGridFinish (m2 : Model) (coord : Coordinate) (grammar : Grammar)
    (rows cols : Nat) : Option (Model × Bool) :=
  let m3 :=
    match coord.parent with
    | some p =>
      { m2 with session := { m2.session with
          grammars := modifyA m2.session.grammars p
            (fun g => { g with kind := grammar.kind }) } }
    | none => m2
  let m4 := { m3 with session := { m3.session with
      grammars := insertA m3.session.grammars coord grammar } }
  some (resize m4 coord ((rows : Rat) * 30) ((cols : Rat) * 90), true)

/-- The `Action::AddNestedGrid` handler (src/model.rs:491).  The dimension
lookups `self.col_widths[..]` / `self.row_heights[..]` panic when absent
(`Index` on `HashMap`), modelled as `none`; the divisor of the existing
dimensions is the literal `3.0` of the source, not the requested count.
`Grammar::as_grid` always returns a `Grid`, so the `if let` block of the
source always runs; the non-`Grid` fallthrough still performs the tail. -/
def updateAddNestedGrid (m : Model) (coord : Coordinate) (rows cols : Nat) :
    Option (Model × Bool) :=
  match non_zero_u32_tuple (rows, cols) with
  | none => none
  | some (r, c) =>
    let grammar := Grammar.as_grid r c
    match grammar.kind with
    | Kind.Grid sub_coords =>
      match lookupA m.col_widths coord.full_col, lookupA m.row_heights coord.full_row with
      | some current_width, some current_height =>
        let tmp_width : Rat := if current_width > 90 then current_width / 3 else 90
        let tmp_heigt : Rat := if current_height > 30 then current_height / 3 else 30
        let m1 := { m with
          active_cell := sub_coords.head?.map (fun sc => Coordinate.child_of coord sc) }
        addNestedGridFinish
          (sub_coords.foldl (fun acc sc => addChildCell acc coord sc tmp_heigt tmp_width) m1)
          coord grammar rows cols
      | _, _ => none
    | _ => addNestedGridFinish m coord grammar rows cols

/-- The body of `Action::InsertCol` for a selected cell (src/model.rs:551):
walk right to the frontier, collect its column members, then — after
`coord.parent().unwrap()`, which panics on a length-1 coordinate — extend a
`Grid` parent with the incremented pairs and insert default leaves there. -/
def insertColCore (m : Model) (coord : Coordinate) : Option (Model × Bool) :=
  let right_most_coord := walk_right (m.session.grammars.length + 1) m.session.grammars coord
  let new_col_coords :=
    (m.query_col right_most_coord.full_col).map (fun c => (c.row, c.col + 1))
  match coord.parent with
  | none => none
  | some parent =>
    match lookupA m.get_session.grammars parent with
    | some g =>
      match g.kind with
      | Kind.Grid sub_coords =>
        let grammars1 := insertManyA m.get_session.grammars
          (new_col_coords.map (fun rc => (Coordinate.child_of parent rc, Grammar.default)))
        let new_sub_coords := sub_coords ++ new_col_coords
        let grammars2 := insertA grammars1 parent
          ⟨g.name, g.style, Kind.Grid new_sub_coords⟩
        some ({ m with session := { m.session with grammars := grammars2 } }, true)
      | _ => some (m, true)
    | none => some (m, true)

/-- The body of `Action::InsertRow` for a selected cell (src/model.rs:597):
the row-wise mirror of `insertColCore`. -/
def insertRowCore (m : Model) (coord : Coordinate) : Option (Model × Bool) :=
  let bottom_most_coord := walk_below (m.session.grammars.length + 1) m.session.grammars coord
  let new_row_coords :=
    (m.query_row bottom_most_coord.full_row).map (fun c => (c.row + 1, c.col))
  match coord.parent with
  | none => none
  | some parent =>
    match lookupA m.get_session.grammars parent with
    | some g =>
      match g.kind with
      | Kind.Grid sub_coords =>
        let grammars1 := insertManyA m.get_session.grammars
          (new_row_coords.map (fun rc => (Coordinate.child_of parent rc, Grammar.default)))
        let new_sub_coords := sub_coords ++ new_row_coords
        let grammars2 := insertA grammars1 parent
          ⟨g.name, g.style, Kind.Grid new_sub_coords⟩
        some ({ m with session := { m.session with grammars := grammars2 } }, true)
      | _ => some (m, true)
    | none => some (m, true)

/-- `Model::update` (src/model.rs:295): one transition of the action reducer.
`none` models a panic; `some (m', b)` is the new state and the
`ShouldRender` flag. -/
def Model.update (m : Model) (a : Action) : Option (Model × Bool) :=
  match a with
  | Action.Noop => some (m, false)
  | Action.Alert _ => some (m, false)
  | Action.ChangeInput coord new_value =>
    some ({ m with session := { m.session with
        grammars := modifyA m.session.grammars coord (changeInputKind new_value) } }, false)
  | Action.SetActiveCell coord =>
    some ({ m with
        first_select_cell := some coord
        last_select_cell := none
        active_cell := some coord }, true)
  | Action.SetSelectedCells coord =>
    some ({ m with last_select_cell := some coord }, true)
  | Action.DoCompletion source_coord dest_coord =>
    let m1 := { m with session := { m.session with
        grammars := move_grammar m.session.grammars source_coord dest_coord } }
    match lookupA m1.row_heights dest_coord.full_row,
          lookupA m1.col_widths dest_coord.full_col with
    | some row_height, some col_width =>
      some (resize m1 dest_coord row_height col_width, true)
    | _, _ => none
  | Action.SetActiveMenu active_menu =>
    some ({ m with open_side_menu := active_menu }, true)
  | Action.ReadSession => some (m, false)
  | Action.LoadSession payload =>
    match payload with
    | none => none
    | some session => some (m.load_session session, true)
  | Action.SaveSession => some (m, false)
  | Action.SetSessionTitle name =>
    some ({ m with session := { m.session with title := name } }, true)
  | Action.ReadDriverFiles => some (m, false)
  | Action.UploadDriverMiscFile => some (m, false)
  | Action.LoadDriverMainFile => some (m, true)
  | Action.AddNestedGrid coord rc => updateAddNestedGrid m coord rc.1 rc.2
  | Action.InsertCol =>
    match m.active_cell with
    | none => some (m, true)
    | some coord => insertColCore m coord
  | Action.InsertRow =>
    match m.active_cell with
    | none => some (m, true)
    | some coord => insertRowCore m coord
  | Action.Lookup source_coord lookup_type =>
    match lookup_type with
    | Lookup.Cell dest_coord =>
      some ({ m with session := { m.session with
          grammars := move_grammar m.session.grammars source_coord dest_coord } }, false)
    | _ => some (m, false)
  | Action.ToggleLookup coord =>
    some ({ m with session := { m.session with
        grammars := modifyA m.session.grammars coord toggleLookupKind } }, true)
  | Action.DefnUpdateName _ _ => some (m, false)
  | Action.DefnUpdateRule _ _ => some (m, false)
  | Action.DefnAddRule _ => some (m, false)


/-- The `ShouldRender` value each `match` arm of `Model::update` returns,
read off arm by arm from src/model.rs:296-687; it depends only on the
action variant, never on whether the handler changed anything. -/
def renderFlag : Action → Bool
  | Action.Noop => false
  | Action.Alert _ => false
  | Action.ChangeInput _ _ => false
  | Action.SetActiveCell _ => true
  | Action.SetSelectedCells _ => true
  | Action.DoCompletion _ _ => true
  | Action.SetActiveMenu _ => true
  | Action.ReadSession => false
  | Action.LoadSession _ => true
  | Action.SaveSession => false
  | Action.SetSessionTitle _ => true
  | Action.ReadDriverFiles => false
  | Action.UploadDriverMiscFile => false
  | Action.LoadDriverMainFile => true
  | Action.AddNestedGrid _ _ => true
  | Action.InsertRow => true
  | Action.InsertCol => true
  | Action.Lookup _ _ => false
  | Action.ToggleLookup _ => true
  | Action.DefnUpdateName _ _ => false
  | Action.DefnUpdateRule _ _ => false
  | Action.DefnAddRule _ => false

/-- Modelled from the spec: a decidable check of the §3 Document Store
invariants of a session — the root/meta entries of `grammars` agree with the
denormalized `root`/`meta` fields, every child listed by a `Grid` node is
present, and every non-root stored coordinate has its parent present.  The
source contains no counterpart of this check; it exists here to state what
`LoadSession` would have to verify. -/
def Session.satisfies_invariants (s : Session) : Bool :=
  (decide (lookupA s.grammars rootCoord = some s.root)) &&
  (decide (lookupA s.grammars metaCoord = some s.meta)) &&
  (s.grammars.all (fun kv =>
    match kv.2.kind with
    | Kind.Grid children =>
      children.all (fun rc => containsA s.grammars (Coordinate.child_of kv.1 rc))
    | _ => true)) &&
  ((keysA s.grammars).all (fun k =>
    match k.parent with
    | some p => containsA s.grammars p
    | none => true))

/-- The situations in which C1 actually holds for `InsertCol`/`InsertRow`:
either no cell is selected, or the active coordinate has a parent (length
at least 2) whose stored node, if any, is not a `Grid`.  The remaining case
of the original claim — an active coordinate of length 1 — makes
`coord.parent().unwrap()` panic (src/model.rs:567,613). -/
def active_parent_not_grid (m : Model) : Prop :=
  match m.active_cell with
  | none => True
  | some coord =>
    match coord.parent with
    | none => False
    | some p =>
      match lookupA m.session.grammars p with
      | none => True
      | some g => ∀ subs, g.kind ≠ Kind.Grid subs

/-- Builder for the concrete reducer states used below: no selection state,
no open menu, the given active cell, dimension tables and session. -/
def mkModel (ac : Option Coordinate) (cw : List (Col × Rat)) (rh : List (Row × Rat))
    (s : Session) : Model :=
  ⟨none, none, ac, cw, rh, none, s⟩

/-- Root-level cell `(1,1)` of the root grid (textually `root-A1`). -/
def cA1 : Coordinate := ⟨[(1, 1), (1, 1)]⟩

/-- Cell `(2,1)` of the root grid (`root-A2`). -/
def cA2 : Coordinate := ⟨[(1, 1), (2, 1)]⟩

/-- Cell `(1,2)` of the root grid (`root-B1`). -/
def cB1 : Coordinate := ⟨[(1, 1), (1, 2)]⟩

/-- Cell `(2,2)` of the root grid (`root-B2`). -/
def cB2 : Coordinate := ⟨[(1, 1), (2, 2)]⟩

/-- Cell `(1,3)` of the root grid (`root-C1`). -/
def cC1 : Coordinate := ⟨[(1, 1), (1, 3)]⟩

/-- Cell `(2,3)` of the root grid (`root-C2`). -/
def cC2 : Coordinate := ⟨[(1, 1), (2, 3)]⟩

/-- First grandchild `(1,1)` under `cA1`. -/
def cA1A1 : Coordinate := ⟨[(1, 1), (1, 1), (1, 1)]⟩

/-- Root grid node with the four children of the C3 scenario. -/
def rootGrid4 : Grammar :=
  ⟨"root", Style.default, Kind.Grid [(1, 1), (2, 1), (1, 2), (2, 2)]⟩

/-- Root grid node after the C3 scenario's column insertion. -/
def rootGrid6 : Grammar :=
  ⟨"root", Style.default, Kind.Grid [(1, 1), (2, 1), (1, 2), (2, 2), (1, 3), (2, 3)]⟩

/-- The C3 scenario store: root Grid `[(1,1),(2,1),(1,2),(2,2)]` with four
default leaves. -/
def storeC3 : GMap :=
  [(rootCoord, rootGrid4), (cA1, Grammar.default), (cA2, Grammar.default),
   (cB1, Grammar.default), (cB2, Grammar.default)]

/-- The C3 scenario state: the store above with active cell `(1,1)`. -/
def mC3 : Model :=
  mkModel (some cA1) [] [] ⟨"s", rootGrid4, Grammar.default, storeC3⟩

/-- The expected result of the C3 scenario: two appended default leaves and
the root grid extended by `[(1,3),(2,3)]`. -/
def mC3after : Model :=
  mkModel (some cA1) [] [] ⟨"s", rootGrid4, Grammar.default,
    [(rootCoord, rootGrid6), (cA1, Grammar.default), (cA2, Grammar.default),
     (cB1, Grammar.default), (cB2, Grammar.default), (cC1, Grammar.default),
     (cC2, Grammar.default)]⟩

/-- A state whose active cell is the length-1 root coordinate itself,
present in the store (used against C1). -/
def mRootActive : Model :=
  mkModel (some rootCoord) [] [] ⟨"s", rootGrid4, Grammar.default, storeC3⟩

/-- The C4 state: active cell `root-A1`, whose column width 180 exceeds the
90 baseline, with the baseline row height 30. -/
def mC4 : Model :=
  mkModel (some cA1) [(Coordinate.full_col cA1, 180)] [(Coordinate.full_row cA1, 30)]
    ⟨"s", rootGrid4, Grammar.default, storeC3⟩

/-- A one-child root grid node. -/
def rootGrid1 : Grammar := ⟨"root", Style.default, Kind.Grid [(1, 1)]⟩

/-- The C7 state: root Grid `[(1,1)]` with a single default leaf, active. -/
def mC7 : Model :=
  mkModel (some cA1) [] []
    ⟨"s", rootGrid1, Grammar.default, [(rootCoord, rootGrid1), (cA1, Grammar.default)]⟩

/-- The C7 state after `InsertRow`: a new leaf at `(2,1)` and the root grid
entry — whose coordinate does not share the frontier's `full_row` —
rewritten with the extended child list. -/
def mC7after : Model :=
  mkModel (some cA1) [] []
    ⟨"s", rootGrid1, Grammar.default,
     [(rootCoord, ⟨"root", Style.default, Kind.Grid [(1, 1), (2, 1)]⟩),
      (cA1, Grammar.default), (cA2, Grammar.default)]⟩

/-- The C8/C9 state: an `Input` node holding `"old"` at `cA1`. -/
def mC8 : Model :=
  mkModel (some cA1) [] []
    ⟨"s", rootGrid1, Grammar.default, [(cA1, ⟨"n", Style.default, Kind.Input "old"⟩)]⟩

/-- The C8/C9 state after `ChangeInput cA1 "new"`. -/
def mC8after : Model :=
  mkModel (some cA1) [] []
    ⟨"s", rootGrid1, Grammar.default, [(cA1, ⟨"n", Style.default, Kind.Input "new"⟩)]⟩

/-- A payload violating the §3 invariants: its root `Grid` lists child
`(1,1)` but the store has no entry at that child coordinate (the spec's §8
rejection scenario). -/
def sBad : Session :=
  ⟨"bad", rootGrid1, Grammar.default, [(rootCoord, rootGrid1), (metaCoord, Grammar.default)]⟩

/-- What `LoadSession` actually makes of `mC3` and the invalid payload
`sBad`: the payload is installed wholesale, only the title survives. -/
def mC2after : Model :=
  mkModel (some cA1) [] [] ⟨"s", rootGrid1, Grammar.default, sBad.grammars⟩

/-- The state reached by a successful `AddNestedGrid` run right after its
child-insertion loop, written out for the proofs below: active cell moved to
the first child, every child of the row-major product inserted as a default
leaf with its missing dimension entries filled from the loop's (hard-coded
divisor 3) temporaries. -/
def addNestedGridLoopState (m : Model) (coord : Coordinate) (rows cols : Nat)
    (cw ch : Rat) : Model :=
  (rowMajorPairs rows cols).foldl
    (fun acc sc => addChildCell acc coord sc
      (if ch > 30 then ch / 3 else 30) (if cw > 90 then cw / 3 else 90))
    { m with
      active_cell := (rowMajorPairs rows cols).head?.map
        (fun sc => Coordinate.child_of coord sc) }

/-! Batteries marks the rational operations `@[irreducible]`; the concrete
evaluations below need them to reduce. -/

attribute [local semireducible] Rat.mul Rat.inv

/-! Association-list lemmas used to reason about the grammar map. -/

theorem lookupA_append {α β : Type} [DecidableEq α] (l1 l2 : List (α × β)) (k : α) :
    lookupA (l1 ++ l2) k = ((lookupA l1 k).elim (lookupA l2 k) some) := by
  induction l1 with
  | nil => simp [lookupA]
  | cons kv rest ih =>
    by_cases h : kv.1 = k <;> simp [lookupA, h, ih]

theorem lookupA_replaceA_self {α β : Type} [DecidableEq α] (l : List (α × β)) (k : α) (v : β)
    (h : containsA l k = true) : lookupA (replaceA l k v) k = some v := by
  induction l with
  | nil => simp [containsA, lookupA] at h
  | cons kv rest ih =>
    by_cases hk : kv.1 = k
    · simp [replaceA, hk, lookupA]
    · simp only [containsA, lookupA, if_neg hk] at h
      simp [replaceA, hk, lookupA, ih h]

theorem lookupA_replaceA_ne {α β : Type} [DecidableEq α] (l : List (α × β)) (k k' : α) (v : β)
    (h : k' ≠ k) : lookupA (replaceA l k v) k' = lookupA l k' := by
  induction l with
  | nil => simp [replaceA]
  | cons kv rest ih =>
    by_cases hk : kv.1 = k
    · have h1 : ¬(k = k') := fun hh => h hh.symm
      have h2 : ¬(kv.1 = k') := fun hh => h (hh.symm.trans hk)
      simp [replaceA, hk, lookupA, h1, h2]
    · by_cases hk' : kv.1 = k'
      · simp [replaceA, hk, lookupA, hk', h]
      · simp [replaceA, hk, lookupA, hk', ih]

theorem lookupA_insertA_self {α β : Type} [DecidableEq α] (l : List (α × β)) (k : α) (v : β) :
    lookupA (insertA l k v) k = some v := by
  by_cases h : containsA l k
  · simp [insertA, h, lookupA_replaceA_self l k v h]
  · have hnone : lookupA l k = none := by
      cases hl : lookupA l k with
      | none => rfl
      | some w => simp [containsA, hl] at h
    simp [insertA, h, lookupA_append, hnone, lookupA]

theorem lookupA_insertA_ne {α β : Type} [DecidableEq α] (l : List (α × β)) (k k' : α) (v : β)
    (h : k' ≠ k) : lookupA (insertA l k v) k' = lookupA l k' := by
  by_cases hc : containsA l k
  · simp [insertA, hc, lookupA_replaceA_ne l k k' v h]
  · simp only [insertA, hc, Bool.false_eq_true, if_false, lookupA_append]
    cases hl : lookupA l k' with
    | none => simp [lookupA, Ne.symm h]
    | some w => simp

theorem lookupA_modifyA_self {α β : Type} [DecidableEq α] (l : List (α × β)) (k : α)
    (f : β → β) : lookupA (modifyA l k f) k = (lookupA l k).map f := by
  induction l with
  | nil => rfl
  | cons kv rest ih =>
    have hfold : modifyA (kv :: rest) k f =
        (if kv.1 = k then (kv.1, f kv.2) else kv) :: modifyA rest k f := rfl
    have hcons : ∀ (x : α × β) (xs : List (α × β)),
        lookupA (x :: xs) k = if x.1 = k then some x.2 else lookupA xs k := fun _ _ => rfl
    rw [hfold, hcons, hcons kv rest]
    by_cases hk : kv.1 = k
    · simp [hk]
    · simp [hk, ih]

theorem lookupA_modifyA_ne {α β : Type} [DecidableEq α] (l : List (α × β)) (k k' : α)
    (f : β → β) (h : k' ≠ k) : lookupA (modifyA l k f) k' = lookupA l k' := by
  induction l with
  | nil => rfl
  | cons kv rest ih =>
    have hfold : modifyA (kv :: rest) k f =
        (if kv.1 = k then (kv.1, f kv.2) else kv) :: modifyA rest k f := rfl
    have hcons : ∀ (x : α × β) (xs : List (α × β)),
        lookupA (x :: xs) k' = if x.1 = k' then some x.2 else lookupA xs k' := fun _ _ => rfl
    rw [hfold, hcons, hcons kv rest]
    by_cases hk : kv.1 = k
    · have h2 : ¬(kv.1 = k') := fun hh => h (hh.symm.trans hk)
      simp [hk, h2, Ne.symm h, ih]
    · by_cases hk' : kv.1 = k'
      · simp [hk, hk', h]
      · simp [hk, hk', ih]

theorem keysA_modifyA {α β : Type} [DecidableEq α] (l : List (α × β)) (k : α) (f : β → β) :
    keysA (modifyA l k f) = keysA l := by
  induction l with
  | nil => rfl
  | cons kv rest ih =>
    by_cases hk : kv.1 = k <;> simp [modifyA, keysA, hk] <;>
      simpa [modifyA, keysA] using ih

theorem insertManyA_cons {α β : Type} [DecidableEq α] (l : List (α × β)) (kv : α × β)
    (rest : List (α × β)) :
    insertManyA l (kv :: rest) = insertManyA (insertA l kv.1 kv.2) rest := rfl

theorem lookupA_insertManyA_of_ne {α β : Type} [DecidableEq α] (l news : List (α × β)) (k : α)
    (h : ∀ kv ∈ news, kv.1 ≠ k) : lookupA (insertManyA l news) k = lookupA l k := by
  induction news generalizing l with
  | nil => rfl
  | cons kv rest ih =>
    rw [insertManyA_cons, ih _ (fun kv' h' => h kv' (List.mem_cons_of_mem _ h')),
      lookupA_insertA_ne _ _ _ _ (Ne.symm (h kv (List.mem_cons_self _ _)))]

theorem lookupA_insertManyA_const {α β : Type} [DecidableEq α] (l news : List (α × β)) (k : α)
    (d : β) (hv : ∀ kv ∈ news, kv.2 = d) (hk : k ∈ keysA news) :
    lookupA (insertManyA l news) k = some d := by
  induction news generalizing l with
  | nil => simp [keysA] at hk
  | cons kv rest ih =>
    by_cases hmem : k ∈ keysA rest
    · exact ih _ (fun kv' h' => hv kv' (List.mem_cons_of_mem _ h')) hmem
    · have hkk : kv.1 = k := by
        simp only [keysA, List.map_cons, List.mem_cons] at hk
        rcases hk with hk | hk
        · exact hk.symm
        · exact absurd (by simpa [keysA] using hk) hmem
      have hrest : ∀ kv' ∈ rest, kv'.1 ≠ k := by
        intro kv' h' heq
        exact hmem (by simp [keysA]; exact ⟨kv'.2, heq ▸ (by simpa using h')⟩)
      rw [insertManyA_cons, lookupA_insertManyA_of_ne _ _ _ hrest, hkk,
        lookupA_insertA_self]
      rw [hv kv (List.mem_cons_self _ _)]


/-! Coordinate-length facts, used to tell the keys touched by a mutation apart. -/

theorem child_of_length (c : Coordinate) (rc : Nat × Nat) :
    (Coordinate.child_of c rc).row_cols.length = c.row_cols.length + 1 := by
  simp [Coordinate.child_of]

theorem parent_some_length {c p : Coordinate} (h : Coordinate.parent c = some p) :
    p.row_cols.length + 1 = c.row_cols.length ∧ 2 ≤ c.row_cols.length := by
  unfold Coordinate.parent at h
  split at h
  · exact Option.noConfusion h
  · next hlen =>
    have hp : p = ⟨c.row_cols.dropLast⟩ := by
      injection h with h
      exact h.symm
    subst hp
    simp only [List.length_dropLast]
    omega

theorem child_of_ne_self (p : Coordinate) (rc : Nat × Nat) :
    Coordinate.child_of p rc ≠ p := by
  intro heq
  have := congrArg (fun x => x.row_cols.length) heq
  simp only [child_of_length] at this
  omega

theorem coord_ne_of_length {c d : Coordinate}
    (h : c.row_cols.length ≠ d.row_cols.length) : c ≠ d := by
  intro heq
  exact h (heq ▸ rfl)

/-! Facts about the row-major Cartesian product built by `Grammar.as_grid`. -/

theorem mem_rowMajorPairs (rows cols r c : Nat) :
    (r, c) ∈ rowMajorPairs rows cols ↔ (1 ≤ r ∧ r ≤ rows ∧ 1 ≤ c ∧ c ≤ cols) := by
  simp only [rowMajorPairs, List.mem_flatMap, List.mem_map, List.mem_range, Prod.mk.injEq]
  constructor
  · rintro ⟨a, ha, b, hb, h1, h2⟩
    omega
  · intro h
    exact ⟨r - 1, by omega, c - 1, by omega, by omega, by omega⟩

theorem length_rowMajorPairs (rows cols : Nat) :
    (rowMajorPairs rows cols).length = rows * cols := by
  induction rows with
  | zero => simp [rowMajorPairs]
  | succ n ih =>
    have hsplit : rowMajorPairs (n + 1) cols =
        rowMajorPairs n cols ++ (List.range cols).map (fun c => (n + 1, c + 1)) := by
      rw [rowMajorPairs, List.range_succ, List.flatMap_append, rowMajorPairs]
      simp
    rw [hsplit, List.length_append, ih, List.length_map, List.length_range]
    ring

theorem head_rowMajorPairs (rows cols : Nat) (hr : 1 ≤ rows) (hc : 1 ≤ cols) :
    (rowMajorPairs rows cols).head? = some (1, 1) := by
  obtain ⟨n, rfl⟩ : ∃ n, rows = n + 1 := ⟨rows - 1, by omega⟩
  obtain ⟨m, rfl⟩ : ∃ m, cols = m + 1 := ⟨cols - 1, by omega⟩
  rw [rowMajorPairs, List.range_succ_eq_map, List.flatMap_cons, List.range_succ_eq_map]
  simp

/-! Shape of the `AddNestedGrid` child-insertion loop. -/

theorem addChildCell_session (acc : Model) (coord : Coordinate) (sc : Nat × Nat)
    (th tw : Rat) :
    (addChildCell acc coord sc th tw).session =
      { acc.session with
        grammars := insertA acc.session.grammars (Coordinate.child_of coord sc)
          Grammar.default } := by
  simp only [addChildCell]
  split <;> split <;> rfl

theorem addChildCell_active (acc : Model) (coord : Coordinate) (sc : Nat × Nat)
    (th tw : Rat) :
    (addChildCell acc coord sc th tw).active_cell = acc.active_cell := by
  simp only [addChildCell]
  split <;> split <;> rfl

theorem foldl_addChildCell_grammars (subs : List (Nat × Nat)) (m0 : Model)
    (coord : Coordinate) (th tw : Rat) :
    (subs.foldl (fun acc sc => addChildCell acc coord sc th tw) m0).session.grammars =
      insertManyA m0.session.grammars
        (subs.map (fun sc => (Coordinate.child_of coord sc, Grammar.default))) := by
  induction subs generalizing m0 with
  | nil => rfl
  | cons sc rest ih =>
    rw [List.foldl_cons, List.map_cons, insertManyA_cons, ih, addChildCell_session]

theorem foldl_addChildCell_active (subs : List (Nat × Nat)) (m0 : Model)
    (coord : Coordinate) (th tw : Rat) :
    (subs.foldl (fun acc sc => addChildCell acc coord sc th tw) m0).active_cell =
      m0.active_cell := by
  induction subs generalizing m0 with
  | nil => rfl
  | cons sc rest ih =>
    rw [List.foldl_cons, ih, addChildCell_active]

/-! Flags returned by the structured handlers. -/

theorem insertColCore_flag (m : Model) (c : Coordinate) (m' : Model) (b : Bool)
    (h : insertColCore m c = some (m', b)) : b = true := by
  unfold insertColCore at h
  split at h
  · exact Option.noConfusion h
  · split at h
    · split at h
      · simp only [Option.some.injEq, Prod.mk.injEq] at h
        exact h.2.symm
      · simp only [Option.some.injEq, Prod.mk.injEq] at h
        exact h.2.symm
    · simp only [Option.some.injEq, Prod.mk.injEq] at h
      exact h.2.symm

theorem insertRowCore_flag (m : Model) (c : Coordinate) (m' : Model) (b : Bool)
    (h : insertRowCore m c = some (m', b)) : b = true := by
  unfold insertRowCore at h
  split at h
  · exact Option.noConfusion h
  · split at h
    · split at h
      · simp only [Option.some.injEq, Prod.mk.injEq] at h
        exact h.2.symm
      · simp only [Option.some.injEq, Prod.mk.injEq] at h
        exact h.2.symm
    · simp only [Option.some.injEq, Prod.mk.injEq] at h
      exact h.2.symm

theorem updateAddNestedGrid_flag (m : Model) (coord : Coordinate) (rows cols : Nat)
    (m' : Model) (b : Bool) (h : updateAddNestedGrid m coord rows cols = some (m', b)) :
    b = true := by
  unfold updateAddNestedGrid at h
  split at h
  · exact Option.noConfusion h
  · simp only [Grammar.as_grid] at h
    split at h
    · simp only [addNestedGridFinish, Option.some.injEq, Prod.mk.injEq] at h
      exact h.2.symm
    · exact Option.noConfusion h

/-- C10: an applied `LoadSession` leaves the current session's title
unchanged — only `root`, `meta` and `grammars` are replaced by the payload's
values, although the payload carries a title. -/
theorem c10_load_session_keeps_title (m : Model) (s : Session) :
    m.update (Action.LoadSession (some s)) =
      some ({ m with session := ⟨m.session.title, s.root, s.meta, s.grammars⟩ }, true) := rfl

/-- C2 (amended): `LoadSession` performs no invariant validation at all — any
successfully deserialized payload is installed wholesale (root, meta and
grammars replaced, title kept), and a payload that fails to deserialize
panics (`serde_json::from_str(..).unwrap()`), so nothing is partially
applied on that path either. -/
theorem c2_load_session_unvalidated :
    (∀ (m : Model) (s : Session),
      m.update (Action.LoadSession (some s)) = some (m.load_session s, true)) ∧
    (∀ m : Model, m.update (Action.LoadSession none) = none) :=
  ⟨fun _ _ => rfl, fun _ => rfl⟩

/-- C2 counterexample: the payload `sBad` violates the §3 invariants (its
root `Grid` lists a child with no store entry), yet `LoadSession` accepts it
and replaces the prior Document Store instead of rejecting it. -/
theorem c2_invalid_payload_accepted :
    Session.satisfies_invariants sBad = false ∧
    mC3.update (Action.LoadSession (some sBad)) = some (mC2after, true) ∧
    mC2after.session.grammars ≠ mC3.session.grammars := by
  refine ⟨by decide, by decide, by decide⟩

/-- C8 counterexample: a `ChangeInput` that really rewrites the text of an
`Input` node — visibly changing the store — still reports `false` as its
render flag (src/model.rs:325). -/
theorem c8_change_input_reports_false :
    mC8.update (Action.ChangeInput cA1 "new") = some (mC8after, false) ∧
    lookupA mC8after.session.grammars cA1 ≠ lookupA mC8.session.grammars cA1 := by
  refine ⟨by decide, by decide⟩

/-- C8 (amended): the boolean returned by `Model::update` is a function of
the action variant alone (`renderFlag`), independent of whether the visible
state changed: in particular `ChangeInput` and `Lookup` return `false` even
when they mutate the store, and `InsertCol`/`InsertRow` return `true` even
when they change nothing. -/
theorem c8_render_flag_depends_only_on_variant (m : Model) (a : Action) (m' : Model)
    (b : Bool) (h : m.update a = some (m', b)) : b = renderFlag a := by
  cases a <;>
    first
      | (simp only [Model.update, Option.some.injEq, Prod.mk.injEq] at h
         exact h.2.symm)
      | (simp only [Model.update] at h
         exact updateAddNestedGrid_flag _ _ _ _ _ _ h)
      | (simp only [Model.update] at h
         split at h <;>
           first
             | exact Option.noConfusion h
             | (simp only [Option.some.injEq, Prod.mk.injEq] at h
                exact h.2.symm)
             | exact insertColCore_flag _ _ _ _ h
             | exact insertRowCore_flag _ _ _ _ h)

/-- C8 witness: the flag theorem applied at `Noop` on a concrete state. -/
theorem c8_witness :
    mC3.update Action.Noop = some (mC3, false) ∧ false = renderFlag Action.Noop :=
  ⟨rfl, c8_render_flag_depends_only_on_variant mC3 Action.Noop mC3 false rfl⟩

/-- C9: `ChangeInput` keeps the node's name and style, preserves the kind
variant — an `Input` stays an `Input` with the new text, a `Lookup` stays a
`Lookup` with the new query and the same resolved target — and leaves the set
of stored coordinates unchanged. -/
theorem c9_change_input_frame (m : Model) (coord : Coordinate) (t : String) (g : Grammar)
    (hg : lookupA m.session.grammars coord = some g) :
    ∃ m', m.update (Action.ChangeInput coord t) = some (m', false) ∧
      keysA m'.session.grammars = keysA m.session.grammars ∧
      (∀ s, g.kind = Kind.Input s →
        lookupA m'.session.grammars coord = some ⟨g.name, g.style, Kind.Input t⟩) ∧
      (∀ s lt, g.kind = Kind.Lookup s lt →
        lookupA m'.session.grammars coord = some ⟨g.name, g.style, Kind.Lookup t lt⟩) := by
  refine ⟨_, rfl, keysA_modifyA _ _ _, ?_, ?_⟩
  · intro s hs
    rw [lookupA_modifyA_self, hg]
    simp [changeInputKind, hs]
  · intro s lt hs
    rw [lookupA_modifyA_self, hg]
    simp [changeInputKind, hs]

/-- The grammar node of the C9 witness state. -/
theorem c9_witness :
    lookupA mC8.session.grammars cA1 = some ⟨"n", Style.default, Kind.Input "old"⟩ ∧
    (∃ m', mC8.update (Action.ChangeInput cA1 "new") = some (m', false) ∧
      keysA m'.session.grammars = keysA mC8.session.grammars ∧
      (∀ s, (Grammar.mk "n" Style.default (Kind.Input "old")).kind = Kind.Input s →
        lookupA m'.session.grammars cA1 = some ⟨"n", Style.default, Kind.Input "new"⟩) ∧
      (∀ s lt, (Grammar.mk "n" Style.default (Kind.Input "old")).kind = Kind.Lookup s lt →
        lookupA m'.session.grammars cA1 = some ⟨"n", Style.default, Kind.Lookup "new" lt⟩)) :=
  ⟨by decide, c9_change_input_frame mC8 cA1 "new" ⟨"n", Style.default, Kind.Input "old"⟩
    (by decide)⟩

/-- C1 counterexample: with the length-1 root coordinate as the active cell
— present in the store but parentless — `InsertCol` and `InsertRow` hit
`coord.parent().unwrap()` and panic instead of leaving the store unchanged. -/
theorem c1_insert_panics_on_rootlevel_active :
    Coordinate.parent rootCoord = none ∧
    containsA mRootActive.session.grammars rootCoord = true ∧
    mRootActive.update Action.InsertCol = none ∧
    mRootActive.update Action.InsertRow = none := by
  refine ⟨by decide, by decide, by decide, by decide⟩

/-- C1 (amended): `InsertCol`/`InsertRow` are unchanged-state no-ops when no
cell is selected, and when the active coordinate has a parent whose stored
node is absent or not a `Grid`; but when the active coordinate has no parent
(a length-1 coordinate) the handler panics on `parent().unwrap()` instead of
no-opping, so that case is excluded here. -/
theorem c1_insert_noop_without_grid_parent (m : Model) (a : Action)
    (ha : a = Action.InsertCol ∨ a = Action.InsertRow)
    (h : active_parent_not_grid m) :
    m.update a = some (m, true) := by
  rcases ha with rfl | rfl
  · simp only [Model.update]
    split
    · rfl
    · next coord heq =>
      have h' := h
      simp only [active_parent_not_grid, heq] at h'
      unfold insertColCore
      split
      · next hpar =>
        simp only [hpar] at h'
      · next parent hpar =>
        simp only [hpar] at h'
        simp only [Model.get_session]
        split
        · next g hg =>
          simp only [hg] at h'
          split
          · next sub_coords heqk =>
            exact absurd heqk (h' sub_coords)
          · rfl
        · rfl
  · simp only [Model.update]
    split
    · rfl
    · next coord heq =>
      have h' := h
      simp only [active_parent_not_grid, heq] at h'
      unfold insertRowCore
      split
      · next hpar =>
        simp only [hpar] at h'
      · next parent hpar =>
        simp only [hpar] at h'
        simp only [Model.get_session]
        split
        · next g hg =>
          simp only [hg] at h'
          split
          · next sub_coords heqk =>
            exact absurd heqk (h' sub_coords)
          · rfl
        · rfl

/-- C1 witness: the amendment applied at a state whose active cell's parent
has no store entry. -/
theorem c1_witness :
    (Action.InsertCol = Action.InsertCol ∨ Action.InsertCol = Action.InsertRow) ∧
    active_parent_not_grid mC8 ∧
    mC8.update Action.InsertCol = some (mC8, true) :=
  ⟨Or.inl rfl, trivial,
    c1_insert_noop_without_grid_parent mC8 Action.InsertCol (Or.inl rfl) trivial⟩

/-- C3: with an active cell whose parent holds a `Grid`, `InsertCol` walks
right to the frontier, collects the stored coordinates sharing the
frontier's `full_col`, inserts a default leaf at each such coordinate's
col-incremented successor and appends the corresponding pairs to the parent
grid's child list (name and style preserved); in particular the scenario
store with root Grid `[(1,1),(2,1),(1,2),(2,2)]` and active `(1,1)` becomes
root Grid `[(1,1),(2,1),(1,2),(2,2),(1,3),(2,3)]` plus two default leaves. -/
theorem c3_insert_col_appends_column (m : Model) (coord parent : Coordinate) (g : Grammar)
    (sub_coords : List (Nat × Nat))
    (hac : m.active_cell = some coord)
    (hpar : coord.parent = some parent)
    (hg : lookupA m.session.grammars parent = some g)
    (hkind : g.kind = Kind.Grid sub_coords) :
    ∃ m', m.update Action.InsertCol = some (m', true) ∧
      lookupA m'.session.grammars parent =
        some ⟨g.name, g.style, Kind.Grid (sub_coords ++
          (m.query_col (walk_right (m.session.grammars.length + 1)
            m.session.grammars coord).full_col).map (fun k => (k.row, k.col + 1)))⟩ ∧
      (∀ k ∈ m.query_col (walk_right (m.session.grammars.length + 1)
          m.session.grammars coord).full_col,
        lookupA m'.session.grammars (Coordinate.child_of parent (k.row, k.col + 1)) =
          some Grammar.default) ∧
      mC3.update Action.InsertCol = some (mC3after, true) := by
  refine
    ⟨{ m with
       session :=
         { m.session with
           grammars :=
             insertA
               (insertManyA m.session.grammars
                 (((m.query_col (walk_right (m.session.grammars.length + 1)
                     m.session.grammars coord).full_col).map
                   (fun k => (k.row, k.col + 1))).map
                   (fun rc => (Coordinate.child_of parent rc, Grammar.default))))
               parent
               ⟨g.name, g.style, Kind.Grid (sub_coords ++
                 (m.query_col (walk_right (m.session.grammars.length + 1)
                   m.session.grammars coord).full_col).map
                     (fun k => (k.row, k.col + 1)))⟩ } },
     ?_, ?_, ?_, ?_⟩
  · simp only [Model.update, hac]
    unfold insertColCore
    simp only [Model.get_session, hpar, hg, hkind]
    rw [hac]
  · exact lookupA_insertA_self _ _ _
  · intro k hk
    rw [lookupA_insertA_ne _ _ _ _ (child_of_ne_self parent (k.row, k.col + 1))]
    apply lookupA_insertManyA_const
    · intro kv hkv
      simp only [List.mem_map] at hkv
      obtain ⟨rc, _, rfl⟩ := hkv
      rfl
    · simp only [keysA, List.map_map, List.mem_map, Function.comp]
      exact ⟨k, hk, rfl⟩
  · decide

/-- C3 witness: the general theorem applied at the scenario store, whose
scenario conjunct is the claim's expected result. -/
theorem c3_witness :
    mC3.active_cell = some cA1 ∧
    mC3.update Action.InsertCol = some (mC3after, true) :=
  ⟨rfl, (c3_insert_col_appends_column mC3 cA1 rootCoord rootGrid4
      [(1, 1), (2, 1), (1, 2), (2, 2)] rfl (by decide) (by decide) rfl).choose_spec.2.2.2⟩

/-- C7 counterexample: `InsertRow` rewrites the parent's `Grid` entry, whose
coordinate does not share the frontier coordinate's `full_row`, so an entry
outside the claimed frame is not bit-identical before and after. -/
theorem c7_parent_entry_changes :
    mC7.update Action.InsertRow = some (mC7after, true) ∧
    Coordinate.full_row rootCoord ≠
      Coordinate.full_row (walk_below (mC7.session.grammars.length + 1)
        mC7.session.grammars cA1) ∧
    lookupA mC7after.session.grammars rootCoord ≠
      lookupA mC7.session.grammars rootCoord := by
  refine ⟨by decide, by decide, by decide⟩

/-- C7 (amended): `InsertRow` touches exactly the parent's `Grid` entry
(child list extended, name/style kept) and the entries at the
row-incremented successors of the coordinates sharing the frontier's
`full_row` (default leaves inserted there); every entry at any other
coordinate is bit-identical before and after. -/
theorem c7_insert_row_frame (m : Model) (coord parent : Coordinate) (g : Grammar)
    (sub_coords : List (Nat × Nat))
    (hac : m.active_cell = some coord)
    (hpar : coord.parent = some parent)
    (hg : lookupA m.session.grammars parent = some g)
    (hkind : g.kind = Kind.Grid sub_coords) :
    ∃ m', m.update Action.InsertRow = some (m', true) ∧
      (∀ k : Coordinate, k ≠ parent →
        (k ∉ (m.query_row (walk_below (m.session.grammars.length + 1)
          m.session.grammars coord).full_row).map
            (fun c => Coordinate.child_of parent (c.row + 1, c.col))) →
        lookupA m'.session.grammars k = lookupA m.session.grammars k) ∧
      lookupA m'.session.grammars parent =
        some ⟨g.name, g.style, Kind.Grid (sub_coords ++
          (m.query_row (walk_below (m.session.grammars.length + 1)
            m.session.grammars coord).full_row).map (fun k => (k.row + 1, k.col)))⟩ ∧
      (∀ k ∈ m.query_row (walk_below (m.session.grammars.length + 1)
          m.session.grammars coord).full_row,
        lookupA m'.session.grammars (Coordinate.child_of parent (k.row + 1, k.col)) =
          some Grammar.default) := by
  refine
    ⟨{ m with
       session :=
         { m.session with
           grammars :=
             insertA
               (insertManyA m.session.grammars
                 (((m.query_row (walk_below (m.session.grammars.length + 1)
                     m.session.grammars coord).full_row).map
                   (fun k => (k.row + 1, k.col))).map
                   (fun rc => (Coordinate.child_of parent rc, Grammar.default))))
               parent
               ⟨g.name, g.style, Kind.Grid (sub_coords ++
                 (m.query_row (walk_below (m.session.grammars.length + 1)
                   m.session.grammars coord).full_row).map
                     (fun k => (k.row + 1, k.col)))⟩ } },
     ?_, ?_, ?_, ?_⟩
  · simp only [Model.update, hac]
    unfold insertRowCore
    simp only [Model.get_session, hpar, hg, hkind]
    rw [hac]
  · intro k hkp hknot
    rw [lookupA_insertA_ne _ _ _ _ hkp]
    apply lookupA_insertManyA_of_ne
    intro kv hkv heq
    apply hknot
    rw [← heq]
    simp only [List.mem_map] at hkv ⊢
    obtain ⟨rc, ⟨c0, hc0, rfl⟩, rfl⟩ := hkv
    exact ⟨c0, hc0, rfl⟩
  · exact lookupA_insertA_self _ _ _
  · intro k hk
    rw [lookupA_insertA_ne _ _ _ _ (child_of_ne_self parent (k.row + 1, k.col))]
    apply lookupA_insertManyA_const
    · intro kv hkv
      simp only [List.mem_map] at hkv
      obtain ⟨rc, _, rfl⟩ := hkv
      rfl
    · simp only [keysA, List.map_map, List.mem_map, Function.comp]
      exact ⟨k, hk, rfl⟩

/-- C7 witness: the frame theorem applied at the two-entry store, checking
that the untouched leaf entry stays identical. -/
theorem c7_witness :
    mC7.active_cell = some cA1 ∧
    (∃ m', mC7.update Action.InsertRow = some (m', true) ∧
      lookupA m'.session.grammars cA1 = lookupA mC7.session.grammars cA1) :=
  ⟨rfl, by
    obtain ⟨m', h1, h2, h3, h4⟩ := c7_insert_row_frame mC7 cA1 rootCoord rootGrid1
      [(1, 1)] rfl (by decide) (by decide) rfl
    exact ⟨m', h1, h2 cA1 (by decide) (by decide)⟩⟩

/-! Projections of `resize` and of the loop state. -/

theorem resize_session (m : Model) (coord : Coordinate) (h w : Rat) :
    (resize m coord h w).session = m.session := rfl

theorem resize_active (m : Model) (coord : Coordinate) (h w : Rat) :
    (resize m coord h w).active_cell = m.active_cell := rfl

theorem resize_row_heights (m : Model) (coord : Coordinate) (h w : Rat) :
    (resize m coord h w).row_heights = insertA m.row_heights coord.full_row h := rfl

theorem resize_col_widths (m : Model) (coord : Coordinate) (h w : Rat) :
    (resize m coord h w).col_widths = insertA m.col_widths coord.full_col w := rfl

theorem loopState_grammars (m : Model) (coord : Coordinate) (rows cols : Nat)
    (cw ch : Rat) :
    (addNestedGridLoopState m coord rows cols cw ch).session.grammars =
      insertManyA m.session.grammars ((rowMajorPairs rows cols).map
        (fun sc => (Coordinate.child_of coord sc, Grammar.default))) := by
  unfold addNestedGridLoopState
  rw [foldl_addChildCell_grammars]

theorem loopState_active (m : Model) (coord : Coordinate) (rows cols : Nat)
    (cw ch : Rat) :
    (addNestedGridLoopState m coord rows cols cw ch).active_cell =
      (rowMajorPairs rows cols).head?.map (fun sc => Coordinate.child_of coord sc) := by
  unfold addNestedGridLoopState
  rw [foldl_addChildCell_active]

/-- Inversion of a successful `AddNestedGrid` transition: the requested
counts are nonzero, both dimension entries of `coord` existed, and the
result is the finishing step applied to the loop state. -/
theorem addNestedGrid_run (m : Model) (coord : Coordinate) (rows cols : Nat)
    (m' : Model) (b : Bool)
    (hup : m.update (Action.AddNestedGrid coord (rows, cols)) = some (m', b)) :
    1 ≤ rows ∧ 1 ≤ cols ∧ b = true ∧
    ∃ cw ch : Rat,
      lookupA m.col_widths coord.full_col = some cw ∧
      lookupA m.row_heights coord.full_row = some ch ∧
      addNestedGridFinish (addNestedGridLoopState m coord rows cols cw ch) coord
        (Grammar.as_grid rows cols) rows cols = some (m', b) := by
  simp only [Model.update] at hup
  unfold updateAddNestedGrid at hup
  split at hup
  · exact Option.noConfusion hup
  · next r c hnz =>
    have hrc : rows = r ∧ cols = c ∧ ¬rows = 0 ∧ ¬cols = 0 := by
      simp only [non_zero_u32_tuple] at hnz
      split at hnz
      · exact Option.noConfusion hnz
      · next hz =>
        simp only [Option.some.injEq, Prod.mk.injEq] at hnz
        exact ⟨hnz.1, hnz.2, fun h => hz (Or.inl h), fun h => hz (Or.inr h)⟩
    obtain ⟨h1, h2, hr0, hc0⟩ := hrc
    subst h1
    subst h2
    simp only [Grammar.as_grid] at hup
    split at hup
    · next cw ch hcw hch =>
      have hb : b = true := by
        have hb0 := hup
        unfold addNestedGridFinish at hb0
        simp only [Option.some.injEq, Prod.mk.injEq] at hb0
        exact hb0.2.symm
      exact ⟨by omega, by omega, hb, cw, ch, hcw, hch, hup⟩
    · exact Option.noConfusion hup

/-- C4: evaluating the code at the failing input — `AddNestedGrid cA1 (2,2)`
with an existing column width of 180 — gives new children a width of
`180 / 3 = 60` (the hard-coded divisor of src/model.rs:508), not the
`180 / 2 = 90` the claim's divide-by-requested-count rule demands. -/
theorem c4_hardcoded_divisor_of_three :
    lookupA mC4.col_widths (Coordinate.full_col cA1) = some 180 ∧
    ((mC4.update (Action.AddNestedGrid cA1 (2, 2))).map
      (fun p => lookupA p.1.col_widths (Coordinate.full_col cA1A1))) = some (some 60) ∧
    (180 : Rat) / 2 = 90 ∧ (60 : Rat) ≠ 90 := by
  refine ⟨by decide, by decide, by decide, by decide⟩

/-- C5: a completed `AddNestedGrid coord (rows, cols)` stores at `coord` a
`Grid` whose children are exactly the row-major Cartesian product of
`1..=rows` and `1..=cols` (`rows * cols` of them), inserts a default leaf at
`child_of coord c` for each product element, sets the active cell to the
first child in row-major order, and resizes `coord` to `rows * 30` by
`cols * 90`. -/
theorem c5_add_nested_grid_children (m : Model) (coord : Coordinate) (rows cols : Nat)
    (m' : Model) (b : Bool)
    (hup : m.update (Action.AddNestedGrid coord (rows, cols)) = some (m', b)) :
    lookupA m'.session.grammars coord = some (Grammar.as_grid rows cols) ∧
    (Grammar.as_grid rows cols).kind = Kind.Grid (rowMajorPairs rows cols) ∧
    (∀ r c : Nat, (r, c) ∈ rowMajorPairs rows cols ↔
      1 ≤ r ∧ r ≤ rows ∧ 1 ≤ c ∧ c ≤ cols) ∧
    (rowMajorPairs rows cols).length = rows * cols ∧
    (∀ p ∈ rowMajorPairs rows cols,
      lookupA m'.session.grammars (Coordinate.child_of coord p) = some Grammar.default) ∧
    m'.active_cell = some (Coordinate.child_of coord (1, 1)) ∧
    lookupA m'.row_heights coord.full_row = some ((rows : Rat) * 30) ∧
    lookupA m'.col_widths coord.full_col = some ((cols : Rat) * 90) := by
  obtain ⟨hrows, hcols, hb, cw, ch, hcw, hch, hfin⟩ :=
    addNestedGrid_run m coord rows cols m' b hup
  unfold addNestedGridFinish at hfin
  simp only [Option.some.injEq, Prod.mk.injEq] at hfin
  obtain ⟨hm', -⟩ := hfin
  subst hm'
  refine ⟨?_, rfl, fun r c => mem_rowMajorPairs rows cols r c,
    length_rowMajorPairs rows cols, ?_, ?_, ?_, ?_⟩
  · rw [resize_session]
    try dsimp only
    exact lookupA_insertA_self _ _ _
  · intro p hp
    rw [resize_session]
    try dsimp only
    rw [lookupA_insertA_ne _ _ _ _ (child_of_ne_self coord p)]
    cases hq : coord.parent with
    | none =>
      simp only [hq]
      rw [loopState_grammars]
      apply lookupA_insertManyA_const
      · intro kv hkv
        simp only [List.mem_map] at hkv
        obtain ⟨sc, _, rfl⟩ := hkv
        rfl
      · simp only [keysA, List.map_map, List.mem_map, Function.comp]
        exact ⟨p, hp, rfl⟩
    | some q =>
      simp only [hq]
      try dsimp only
      have hqne : Coordinate.child_of coord p ≠ q := by
        apply coord_ne_of_length
        have hl1 := child_of_length coord p
        have hl2 := (parent_some_length hq).1
        omega
      rw [lookupA_modifyA_ne _ _ _ _ hqne]
      rw [loopState_grammars]
      apply lookupA_insertManyA_const
      · intro kv hkv
        simp only [List.mem_map] at hkv
        obtain ⟨sc, _, rfl⟩ := hkv
        rfl
      · simp only [keysA, List.map_map, List.mem_map, Function.comp]
        exact ⟨p, hp, rfl⟩
  · rw [resize_active]
    try dsimp only
    cases hq : coord.parent with
    | none =>
      simp only [hq]
      rw [loopState_active, head_rowMajorPairs rows cols hrows hcols]
      rfl
    | some q =>
      simp only [hq]
      try dsimp only
      rw [loopState_active, head_rowMajorPairs rows cols hrows hcols]
      rfl
  · rw [resize_row_heights]
    exact lookupA_insertA_self _ _ _
  · rw [resize_col_widths]
    exact lookupA_insertA_self _ _ _

/-- C5 witness: the theorem applied at the concrete 2-by-2 request on `cA1`. -/
theorem c5_witness :
    ∃ m', mC4.update (Action.AddNestedGrid cA1 (2, 2)) = some (m', true) ∧
      m'.active_cell = some (Coordinate.child_of cA1 (1, 1)) ∧
      lookupA m'.session.grammars cA1 = some (Grammar.as_grid 2 2) ∧
      (rowMajorPairs 2 2).length = 2 * 2 := by
  cases hr : mC4.update (Action.AddNestedGrid cA1 (2, 2)) with
  | none => exact absurd hr (by decide)
  | some p =>
    obtain ⟨m', b⟩ := p
    have hb : b = true := updateAddNestedGrid_flag mC4 cA1 2 2 m' b
      (by simpa [Model.update] using hr)
    subst hb
    have hcon := c5_add_nested_grid_children mC4 cA1 2 2 m' true hr
    exact ⟨m', rfl, hcon.2.2.2.2.2.1, hcon.1, hcon.2.2.2.1⟩

/-- C6: when `coord` has a parent present in the store, `AddNestedGrid`
rewrites that parent's node to carry exactly the grid kind just stored at
`coord`, keeping the parent's name and style; a parent coordinate absent
from the store stays absent (no rewrite materializes it). -/
theorem c6_parent_mirrors_grid_kind (m : Model) (coord : Coordinate) (rows cols : Nat)
    (m' : Model) (b : Bool) (q : Coordinate)
    (hq : coord.parent = some q)
    (hup : m.update (Action.AddNestedGrid coord (rows, cols)) = some (m', b)) :
    (∀ g0, lookupA m.session.grammars q = some g0 →
      lookupA m'.session.grammars q =
        some ⟨g0.name, g0.style, (Grammar.as_grid rows cols).kind⟩) ∧
    (lookupA m.session.grammars q = none → lookupA m'.session.grammars q = none) := by
  obtain ⟨hrows, hcols, hb, cw, ch, hcw, hch, hfin⟩ :=
    addNestedGrid_run m coord rows cols m' b hup
  unfold addNestedGridFinish at hfin
  simp only [Option.some.injEq, Prod.mk.injEq] at hfin
  obtain ⟨hm', -⟩ := hfin
  subst hm'
  have hqc : q ≠ coord := by
    apply coord_ne_of_length
    have hl := (parent_some_length hq).1
    omega
  have key0 : lookupA (addNestedGridLoopState m coord rows cols cw ch).session.grammars q =
      lookupA m.session.grammars q := by
    rw [loopState_grammars]
    apply lookupA_insertManyA_of_ne
    intro kv hkv
    simp only [List.mem_map] at hkv
    obtain ⟨sc, _, rfl⟩ := hkv
    show Coordinate.child_of coord sc ≠ q
    apply coord_ne_of_length
    have hl1 := child_of_length coord sc
    have hl2 := (parent_some_length hq).1
    omega
  constructor
  · intro g0 hg0
    rw [resize_session]
    try dsimp only
    rw [lookupA_insertA_ne _ _ _ _ hqc]
    simp only [hq]
    try dsimp only
    rw [lookupA_modifyA_self, key0, hg0]
    rfl
  · intro hg0
    rw [resize_session]
    try dsimp only
    rw [lookupA_insertA_ne _ _ _ _ hqc]
    simp only [hq]
    try dsimp only
    rw [lookupA_modifyA_self, key0, hg0]
    rfl

/-- C6 witness: the parent of `cA1` is the stored root grid; after the
2-by-2 request its entry carries the new grid kind with name and style
kept. -/
theorem c6_witness :
    Coordinate.parent cA1 = some rootCoord ∧
    lookupA mC4.session.grammars rootCoord = some rootGrid4 ∧
    (∃ m', mC4.update (Action.AddNestedGrid cA1 (2, 2)) = some (m', true) ∧
      lookupA m'.session.grammars rootCoord =
        some ⟨rootGrid4.name, rootGrid4.style, (Grammar.as_grid 2 2).kind⟩) := by
  refine ⟨by decide, by decide, ?_⟩
  cases hr : mC4.update (Action.AddNestedGrid cA1 (2, 2)) with
  | none => exact absurd hr (by decide)
  | some p =>
    obtain ⟨m', b⟩ := p
    have hb : b = true := updateAddNestedGrid_flag mC4 cA1 2 2 m' b
      (by simpa [Model.update] using hr)
    subst hb
    have hcon := c6_parent_mirrors_grid_kind mC4 cA1 2 2 m' true rootCoord (by decide) hr
    exact ⟨m', rfl, hcon.1 rootGrid4 (by decide)⟩

end ISE
